import Mathlib

/-!
Verification of the linked-file sync updater core (a Blender add-on that
watches externally linked library files and reloads them when they change
on disk).

The embedding models the module `__init__.py` of the repository.  Python
floats (mtimes, intervals, clock readings) are modelled as rationals,
byte sizes as integers.  The host environment (filesystem and Blender
API) is modelled by an explicit `FS` record: path resolution
(`bpy.path.abspath`), existence (`os.path.exists`), stat
(`os.stat`, `None` on exception) and whether the platform-specific
cache-invalidation side effects of `force_filesystem_update` succeed.
A library's `reload()` either succeeds or raises; this is modelled by a
boolean `reload_ok` on the library handle.  The global mutable cache
`linked_files` and the `LinkedFileProperties` property group are passed
and returned explicitly.
-/

namespace LinkedFileSync

/-- Result of a successful `os.stat`: modification time and size
(`get_direct_file_info`, lines 61-70). -/
structure FileInfo where
  mtime : ℚ
  size : ℤ
deriving DecidableEq

/-- A linked library as exposed by `bpy.data.libraries`: its (possibly
relative, possibly empty) `filepath`, its `name`, and whether its
`reload()` call succeeds (`False` models `reload()` raising). -/
structure Library where
  filepath : String
  name : String
  reload_ok : Bool
deriving DecidableEq

/-- The host environment: path resolution, path existence, stat probing
and success of the best-effort cache-invalidation side effects. -/
structure FS where
  abspath : String → String
  pathExists : String → Bool
  stat : String → Option FileInfo
  invalidateOk : String → Bool

/-- One value of the `linked_files` dictionary (built at lines 87-92):
the library handle, its last known mtime (`last_modified`), size and
display name. -/
structure WatchEntry where
  library : Library
  last_modified : ℚ
  size : ℤ
  lib_name : String
deriving DecidableEq

/-- The `linked_files` dictionary: an association list from absolute
path to `WatchEntry`, in Python dict insertion order. -/
abbrev WatchSet := List (String × WatchEntry)

/-- Python dict lookup `d[k]` / `k in d` on the association list. -/
def wsFind : WatchSet → String → Option WatchEntry
  | [], _ => none
  | (k, v) :: rest, p => if k = p then some v else wsFind rest p

/-- The key list of the dictionary, in order. -/
def wsKeys (w : WatchSet) : List String := w.map Prod.fst

/-- Python dict assignment `d[k] = v`: replace the value in place if the
key is present, otherwise append the pair at the end. -/
def dictInsert : WatchSet → String → WatchEntry → WatchSet
  | [], k, v => [(k, v)]
  | (k1, v1) :: rest, k, v =>
      if k1 = k then (k, v) :: rest else (k1, v1) :: dictInsert rest k v

/-- The `watch_mode` enum of `LinkedFileProperties` (lines 26-34). -/
inductive WatchMode where
  | DIRECT : WatchMode
  | AGGRESSIVE : WatchMode
deriving DecidableEq

/-- The `LinkedFileProperties` property group (lines 10-34). -/
structure Props where
  check_interval : ℚ
  is_monitoring : Bool
  last_check_time : ℚ
  watch_mode : WatchMode
deriving DecidableEq

/-- `force_filesystem_update` (lines 36-59): returns `False` when the
path does not exist; otherwise runs platform-specific commands and a
partial read inside a bare `try`, returning `True` on success and
`False` on any exception (modelled by `FS.invalidateOk`).  It never
raises. -/
def force_filesystem_update (fs : FS) (filepath : String) : Bool :=
  if fs.pathExists filepath = false then false
  else fs.invalidateOk filepath

/-- `get_direct_file_info` (lines 61-70): `os.stat` wrapped in a bare
`try`, `None` on any exception. -/
def get_direct_file_info (fs : FS) (filepath : String) : Option FileInfo :=
  fs.stat filepath

/-- Loop body of `get_linked_files` (lines 76-92): libraries with an
empty `filepath` are skipped, the path is made absolute, non-existing
paths are skipped, a cache invalidation is forced (result discarded),
and only a successful metadata probe adds a dict entry. -/
def gl_step (fs : FS) (acc : WatchSet) (lib : Library) : WatchSet :=
  if lib.filepath ≠ "" then
    let filepath := fs.abspath lib.filepath
    if fs.pathExists filepath then
      let _ := force_filesystem_update fs filepath
      match get_direct_file_info fs filepath with
      | some file_info =>
          dictInsert acc filepath
            { library := lib, last_modified := file_info.mtime,
              size := file_info.size, lib_name := lib.name }
      | none => acc
    else acc
  else acc

/-- `get_linked_files` (lines 72-94): rebuild the snapshot dictionary
from the host's current library list. -/
def get_linked_files (fs : FS) (libs : List Library) : WatchSet :=
  libs.foldl (gl_step fs) []

/-- Body of the detection-and-dispatch loop shared by
`update_linked_files` (lines 105-125) and `poll_files` (lines 146-159):
for each fresh entry whose path is also in the cached dict and whose
metadata moved (`last_modified` strictly newer OR `size` different), a
reload is attempted inside a per-entry `try`; only a successful reload
appends the library name to the updated list. -/
def ul_step (prev : WatchSet) (updated : List String) (pe : String × WatchEntry) :
    List String :=
  match wsFind prev pe.1 with
  | some old_info =>
      if old_info.last_modified < pe.2.last_modified ∨ pe.2.size ≠ old_info.size then
        if pe.2.library.reload_ok then updated ++ [pe.2.lib_name] else updated
      else updated
  | none => updated

/-- The detection-and-dispatch loop over a fresh snapshot `cur` against
a cached snapshot `prev`, yielding the names of successfully reloaded
libraries in snapshot order. -/
def update_loop (prev cur : WatchSet) : List String :=
  cur.foldl (ul_step prev) []

/-- Detection only (the condition at lines 110-111 and 151-152, whose
firing is reported by the `Change detected` / `change in` prints): the
sub-list of fresh entries whose path is in both snapshots and whose
metadata moved. -/
def cd_step (prev : WatchSet) (acc : List (String × WatchEntry))
    (pe : String × WatchEntry) : List (String × WatchEntry) :=
  match wsFind prev pe.1 with
  | some old_info =>
      if old_info.last_modified < pe.2.last_modified ∨ pe.2.size ≠ old_info.size then
        acc ++ [pe]
      else acc
  | none => acc

/-- The changed-entry set computed by the detection condition of the
update and poll loops. -/
def changed_entries (prev cur : WatchSet) : List (String × WatchEntry) :=
  cur.foldl (cd_step prev) []

/-- The spec's characterisation of "changed" (spec 4.3), stated
independently of the loops: the path exists in both snapshots and
`cur.mtime > prev.mtime OR cur.size != prev.size`. -/
def specChanged (prev : WatchSet) (pe : String × WatchEntry) : Prop :=
  ∃ old_info, wsFind prev pe.1 = some old_info ∧
    (old_info.last_modified < pe.2.last_modified ∨ pe.2.size ≠ old_info.size)

/-- `update_linked_files` (lines 96-130): rebuild the snapshot, run the
detection-and-dispatch loop against the cached `linked_files`, replace
the cache with the fresh snapshot, return the updated names.  (The
aggressive-mode `force_filesystem_update` inside the `try` only has
discarded side effects; `props` is otherwise unread.) -/
def update_linked_files (fs : FS) (libs : List Library) (cache : WatchSet) :
    List String × WatchSet :=
  let current_linked_files := get_linked_files fs libs
  (update_loop cache current_linked_files, current_linked_files)

/-- `poll_files` (lines 132-164): in AGGRESSIVE mode, force a cache
invalidation for every path already in the cached dict (results
discarded), rebuild a fresh snapshot, run the detection-and-dispatch
loop, replace the cache; outside AGGRESSIVE mode do nothing and leave
the cache alone. -/
def poll_files (fs : FS) (libs : List Library) (props : Props) (cache : WatchSet) :
    List String × WatchSet :=
  if props.watch_mode = WatchMode.AGGRESSIVE then
    let _ := cache.map (fun pe => force_filesystem_update fs pe.1)
    let fresh_files := get_linked_files fs libs
    (update_loop cache fresh_files, fresh_files)
  else ([], cache)

/-- Result of one timer tick: the property group and cache after the
tick, the names reported updated, whether a redraw was requested
(line 192) and the returned next delay (line 195). -/
structure TickResult where
  props : Props
  cache : WatchSet
  updated : List String
  redraw : Bool
  delay : ℚ
deriving DecidableEq

/-- `check_linked_files` (lines 166-195), the timer callback: if
monitoring is off, return the configured interval untouched; else if
the interval elapsed, stamp `last_check_time` and run a full
`update_linked_files`; else in AGGRESSIVE mode run `poll_files`.  A
redraw is requested iff the updated list is non-empty, and the returned
delay is `0.2` in AGGRESSIVE mode and the configured interval
otherwise. -/
def check_linked_files (fs : FS) (libs : List Library) (now : ℚ)
    (props : Props) (cache : WatchSet) : TickResult :=
  if props.is_monitoring = false then
    { props := props, cache := cache, updated := [], redraw := false,
      delay := props.check_interval }
  else
    let st : Props × WatchSet × List String :=
      if now - props.last_check_time ≥ props.check_interval then
        let r := update_linked_files fs libs cache
        ({ props with last_check_time := now }, r.2, r.1)
      else if props.watch_mode = WatchMode.AGGRESSIVE then
        let r := poll_files fs libs props cache
        (props, r.2, r.1)
      else (props, cache, [])
    { props := st.1, cache := st.2.1, updated := st.2.2,
      redraw := !st.2.2.isEmpty,
      delay := if props.watch_mode = WatchMode.AGGRESSIVE then (0.2 : ℚ)
               else props.check_interval }

/-- Result of an operator `execute`. -/
structure OpResult where
  props : Props
  cache : WatchSet
  updated : List String
  redraw : Bool
deriving DecidableEq

/-- `LINKED_FILE_OT_force_check.execute` (lines 274-289): force a cache
invalidation on every cached path (results discarded), then run
`update_linked_files` and report.  It does not read the clock, does not
touch the property group, and does not request a redraw. -/
def force_check_execute (fs : FS) (libs : List Library) (props : Props)
    (cache : WatchSet) : OpResult :=
  let _ := cache.map (fun pe => force_filesystem_update fs pe.1)
  let r := update_linked_files fs libs cache
  { props := props, cache := r.2, updated := r.1, redraw := false }

/-- Result of `LINKED_FILE_OT_manual_update.execute`: it counts
successful reloads rather than collecting names. -/
structure ManualResult where
  props : Props
  cache : WatchSet
  reloaded : ℕ
  redraw : Bool
deriving DecidableEq

/-- `LINKED_FILE_OT_manual_update.execute` (lines 296-312): rebuild the
snapshot, attempt `reload()` on every entry unconditionally inside a
per-entry `try`, count successes.  It does not request a redraw. -/
def manual_update_execute (fs : FS) (libs : List Library) (props : Props)
    (_cache : WatchSet) : ManualResult :=
  let fresh := get_linked_files fs libs
  let updated := fresh.foldl
    (fun n pe => if pe.2.library.reload_ok then n + 1 else n) 0
  { props := props, cache := fresh, reloaded := updated, redraw := false }

/-! Concrete host environments used by witnesses and counterexamples. -/

/-- A concrete library whose reload succeeds. -/
def libA : Library := { filepath := "a.lib", name := "LibA", reload_ok := true }

/-- A concrete host library list with the single library `libA`. -/
def libsA : List Library := [libA]

/-- A concrete filesystem where `a.lib` exists with mtime 5, size 10. -/
def fsA : FS :=
  { abspath := fun p => p, pathExists := fun _ => true,
    stat := fun _ => some { mtime := 5, size := 10 },
    invalidateOk := fun _ => true }

/-- A cached snapshot recording mtime 1 (older than `fsA` reports) for
`a.lib`. -/
def cacheA : WatchSet :=
  [("a.lib", { library := libA, last_modified := 1, size := 10, lib_name := "LibA" })]

/-- Properties: monitoring off, interval 5, AGGRESSIVE mode. -/
def propsOffAgg : Props :=
  { check_interval := 5, is_monitoring := false, last_check_time := 0,
    watch_mode := WatchMode.AGGRESSIVE }

/-- Properties: monitoring on, interval 5, DIRECT mode, last check at 0. -/
def propsDir : Props :=
  { check_interval := 5, is_monitoring := true, last_check_time := 0,
    watch_mode := WatchMode.DIRECT }

/-- Properties: monitoring on, interval 5, AGGRESSIVE mode, last check
at 10. -/
def propsAgg : Props :=
  { check_interval := 5, is_monitoring := true, last_check_time := 10,
    watch_mode := WatchMode.AGGRESSIVE }

/-! Dictionary lemmas. -/

theorem wsFind_dictInsert (m : WatchSet) (k p : String) (v : WatchEntry) :
    wsFind (dictInsert m k v) p = if p = k then some v else wsFind m p := by
  induction m with
  | nil =>
      by_cases h : p = k
      · subst h; simp [dictInsert, wsFind]
      · simp [dictInsert, wsFind, h, Ne.symm h]
  | cons hd tl ih =>
      obtain ⟨k1, v1⟩ := hd
      by_cases h1 : k1 = k
      · subst h1
        by_cases h : p = k1
        · subst h; simp [dictInsert, wsFind]
        · simp [dictInsert, wsFind, h, Ne.symm h]
      · by_cases h2 : k1 = p
        · subst h2
          simp [dictInsert, wsFind, h1]
        · simp [dictInsert, wsFind, h1, h2, ih]

theorem mem_wsKeys_dictInsert (m : WatchSet) (k p : String) (v : WatchEntry) :
    p ∈ wsKeys (dictInsert m k v) ↔ p ∈ wsKeys m ∨ p = k := by
  induction m with
  | nil => simp [dictInsert, wsKeys]
  | cons hd tl ih =>
      obtain ⟨k1, v1⟩ := hd
      by_cases h1 : k1 = k
      · subst h1; simp [dictInsert, wsKeys]; tauto
      · simp [dictInsert, wsKeys, h1] at ih ⊢; tauto

theorem nodup_wsKeys_dictInsert (m : WatchSet) (k : String) (v : WatchEntry)
    (h : (wsKeys m).Nodup) : (wsKeys (dictInsert m k v)).Nodup := by
  induction m with
  | nil => simp [dictInsert, wsKeys]
  | cons hd tl ih =>
      obtain ⟨k1, v1⟩ := hd
      simp only [wsKeys, List.map_cons, List.nodup_cons] at h
      by_cases h1 : k1 = k
      · subst h1
        simpa [dictInsert, wsKeys] using h
      · have htl := ih h.2
        have hk1 : k1 ∉ wsKeys (dictInsert tl k v) := by
          rw [mem_wsKeys_dictInsert]
          rintro (hmem | rfl)
          · exact h.1 hmem
          · exact h1 rfl
        have hstep : dictInsert ((k1, v1) :: tl) k v = (k1, v1) :: dictInsert tl k v := by
          simp [dictInsert, h1]
        rw [hstep]
        simp only [wsKeys, List.map_cons, List.nodup_cons]
        exact ⟨hk1, htl⟩

theorem wsFind_of_mem_nodup (w : WatchSet) (h : (wsKeys w).Nodup)
    (p : String) (e : WatchEntry) (hm : (p, e) ∈ w) : wsFind w p = some e := by
  induction w with
  | nil => cases hm
  | cons hd tl ih =>
      obtain ⟨k1, v1⟩ := hd
      simp only [wsKeys, List.map_cons, List.nodup_cons] at h
      rcases List.mem_cons.mp hm with heq | hmem
      · cases heq
        simp [wsFind]
      · have hp : p ∈ wsKeys tl := List.mem_map_of_mem Prod.fst hmem
        have hne : ¬ k1 = p := fun hh => h.1 (hh ▸ hp)
        simpa [wsFind, hne] using ih h.2 hmem

/-! Characterisation of the detection loop. -/

theorem mem_cd_step (prev : WatchSet) (acc : List (String × WatchEntry))
    (a x : String × WatchEntry) :
    x ∈ cd_step prev acc a ↔ x ∈ acc ∨ (x = a ∧ specChanged prev a) := by
  cases h : wsFind prev a.1 with
  | none =>
      simp [cd_step, h, specChanged]
  | some o =>
      by_cases hc : o.last_modified < a.2.last_modified ∨ a.2.size ≠ o.size
      · simp [cd_step, h, hc, specChanged]
      · simp [cd_step, h, hc, specChanged]

theorem mem_foldl_cd (prev : WatchSet) :
    ∀ (cur : WatchSet) (acc : List (String × WatchEntry)) (x : String × WatchEntry),
      x ∈ cur.foldl (cd_step prev) acc ↔ x ∈ acc ∨ (x ∈ cur ∧ specChanged prev x)
  | [], acc, x => by simp
  | a :: l, acc, x => by
      rw [List.foldl_cons, mem_foldl_cd prev l (cd_step prev acc a) x, mem_cd_step]
      simp only [List.mem_cons]
      constructor
      · rintro ((h | ⟨rfl, hc⟩) | ⟨h, hc⟩)
        · exact Or.inl h
        · exact Or.inr ⟨Or.inl rfl, hc⟩
        · exact Or.inr ⟨Or.inr h, hc⟩
      · rintro (h | ⟨rfl | h, hc⟩)
        · exact Or.inl (Or.inl h)
        · exact Or.inl (Or.inr ⟨rfl, hc⟩)
        · exact Or.inr ⟨h, hc⟩

theorem mem_changed_entries (prev cur : WatchSet) (x : String × WatchEntry) :
    x ∈ changed_entries prev cur ↔ x ∈ cur ∧ specChanged prev x := by
  simpa using mem_foldl_cd prev cur [] x

/-! The dispatch loop equals filter-then-map over the detection loop. -/

theorem cd_step_eq_append (prev : WatchSet) (acc : List (String × WatchEntry))
    (a : String × WatchEntry) : cd_step prev acc a = acc ++ cd_step prev [] a := by
  cases h : wsFind prev a.1 with
  | none => simp [cd_step, h]
  | some o =>
      by_cases hc : o.last_modified < a.2.last_modified ∨ a.2.size ≠ o.size
      · simp [cd_step, h, hc]
      · simp [cd_step, h, hc]

theorem ul_step_eq_append (prev : WatchSet) (acc : List String)
    (a : String × WatchEntry) : ul_step prev acc a = acc ++ ul_step prev [] a := by
  cases h : wsFind prev a.1 with
  | none => simp [ul_step, h]
  | some o =>
      by_cases hc : o.last_modified < a.2.last_modified ∨ a.2.size ≠ o.size
      · by_cases hr : a.2.library.reload_ok
        · simp [ul_step, h, hc, hr]
        · simp [ul_step, h, hc, hr]
      · simp [ul_step, h, hc]

theorem foldl_cd_eq_append (prev : WatchSet) :
    ∀ (cur : WatchSet) (acc : List (String × WatchEntry)),
      cur.foldl (cd_step prev) acc = acc ++ cur.foldl (cd_step prev) []
  | [], acc => by simp
  | a :: l, acc => by
      rw [List.foldl_cons, List.foldl_cons, foldl_cd_eq_append prev l (cd_step prev acc a),
        foldl_cd_eq_append prev l (cd_step prev [] a), cd_step_eq_append,
        List.append_assoc]

theorem foldl_ul_eq_append (prev : WatchSet) :
    ∀ (cur : WatchSet) (acc : List String),
      cur.foldl (ul_step prev) acc = acc ++ cur.foldl (ul_step prev) []
  | [], acc => by simp
  | a :: l, acc => by
      rw [List.foldl_cons, List.foldl_cons, foldl_ul_eq_append prev l (ul_step prev acc a),
        foldl_ul_eq_append prev l (ul_step prev [] a), ul_step_eq_append,
        List.append_assoc]

theorem ul_step_eq_filter_map (prev : WatchSet) (a : String × WatchEntry) :
    ul_step prev [] a =
      ((cd_step prev [] a).filter (fun pe => pe.2.library.reload_ok)).map
        (fun pe => pe.2.lib_name) := by
  cases h : wsFind prev a.1 with
  | none => simp [ul_step, cd_step, h]
  | some o =>
      by_cases hc : o.last_modified < a.2.last_modified ∨ a.2.size ≠ o.size
      · by_cases hr : a.2.library.reload_ok
        · simp [ul_step, cd_step, h, hc, hr]
        · simp [ul_step, cd_step, h, hc, hr]
      · simp [ul_step, cd_step, h, hc]

theorem update_loop_eq_filter_map (prev : WatchSet) :
    ∀ cur : WatchSet,
      update_loop prev cur =
        ((changed_entries prev cur).filter (fun pe => pe.2.library.reload_ok)).map
          (fun pe => pe.2.lib_name)
  | [] => by simp [update_loop, changed_entries]
  | a :: l => by
      have ih := update_loop_eq_filter_map prev l
      rw [update_loop, changed_entries] at ih ⊢
      rw [List.foldl_cons, List.foldl_cons, foldl_ul_eq_append, foldl_cd_eq_append,
        List.filter_append, List.map_append, ← ih, ul_step_eq_filter_map]

/-! Characterisation of the snapshot builder. -/

theorem wsFind_isSome_gl_step (fs : FS) (acc : WatchSet) (lib : Library) (p : String) :
    (wsFind (gl_step fs acc lib) p).isSome ↔
      (wsFind acc p).isSome ∨
        (lib.filepath ≠ "" ∧ fs.abspath lib.filepath = p ∧
          fs.pathExists p = true ∧ (fs.stat p).isSome) := by
  by_cases h0 : lib.filepath = ""
  · simp [gl_step, h0]
  · by_cases h1 : fs.pathExists (fs.abspath lib.filepath) = true
    · cases h2 : fs.stat (fs.abspath lib.filepath) with
      | none =>
          simp only [gl_step, h0, if_true, ite_not, get_direct_file_info, h1, h2, if_false]
          constructor
          · exact fun h => Or.inl h
          · rintro (h | ⟨-, rfl, -, hsome⟩)
            · exact h
            · rw [h2] at hsome; cases hsome
      | some fi =>
          simp only [gl_step, h0, if_true, ite_not, get_direct_file_info, h1, h2, if_false]
          rw [wsFind_dictInsert]
          by_cases hp : p = fs.abspath lib.filepath
          · subst hp
            simp [h0, h1, h2]
          · have hp2 : ¬ fs.abspath lib.filepath = p := fun hh => hp hh.symm
            simp only [hp, if_false]
            constructor
            · exact fun h => Or.inl h
            · rintro (h | ⟨-, hpp, -, -⟩)
              · exact h
              · exact absurd hpp hp2
    · simp only [gl_step, h0, if_true, ite_not, h1, if_false]
      constructor
      · exact fun h => Or.inl h
      · rintro (h | ⟨-, rfl, hex, -⟩)
        · exact h
        · exact absurd hex h1

theorem wsFind_isSome_foldl_gl (fs : FS) :
    ∀ (libs : List Library) (acc : WatchSet) (p : String),
      (wsFind (libs.foldl (gl_step fs) acc) p).isSome ↔
        (wsFind acc p).isSome ∨ ∃ lib ∈ libs, lib.filepath ≠ "" ∧
          fs.abspath lib.filepath = p ∧ fs.pathExists p = true ∧ (fs.stat p).isSome
  | [], acc, p => by simp
  | l :: ls, acc, p => by
      rw [List.foldl_cons, wsFind_isSome_foldl_gl fs ls (gl_step fs acc l) p,
        wsFind_isSome_gl_step]
      simp only [List.mem_cons]
      constructor
      · rintro ((h | hc) | ⟨lib, hmem, hc⟩)
        · exact Or.inl h
        · exact Or.inr ⟨l, Or.inl rfl, hc⟩
        · exact Or.inr ⟨lib, Or.inr hmem, hc⟩
      · rintro (h | ⟨lib, rfl | hmem, hc⟩)
        · exact Or.inl (Or.inl h)
        · exact Or.inl (Or.inr hc)
        · exact Or.inr ⟨lib, hmem, hc⟩

theorem nodup_wsKeys_gl_step (fs : FS) (acc : WatchSet) (lib : Library)
    (h : (wsKeys acc).Nodup) : (wsKeys (gl_step fs acc lib)).Nodup := by
  by_cases h0 : lib.filepath = ""
  · simpa [gl_step, h0] using h
  · by_cases h1 : fs.pathExists (fs.abspath lib.filepath) = true
    · cases h2 : fs.stat (fs.abspath lib.filepath) with
      | none => simpa [gl_step, h0, h1, get_direct_file_info, h2] using h
      | some fi =>
          have hi := nodup_wsKeys_dictInsert acc (fs.abspath lib.filepath)
            { library := lib, last_modified := fi.mtime, size := fi.size,
              lib_name := lib.name } h
          simpa [gl_step, h0, h1, get_direct_file_info, h2] using hi
    · simpa [gl_step, h0, h1] using h

theorem nodup_wsKeys_foldl_gl (fs : FS) :
    ∀ (libs : List Library) (acc : WatchSet), (wsKeys acc).Nodup →
      (wsKeys (libs.foldl (gl_step fs) acc)).Nodup
  | [], _, h => h
  | l :: ls, acc, h => by
      rw [List.foldl_cons]
      exact nodup_wsKeys_foldl_gl fs ls (gl_step fs acc l) (nodup_wsKeys_gl_step fs acc l h)

theorem nodup_wsKeys_get_linked_files (fs : FS) (libs : List Library) :
    (wsKeys (get_linked_files fs libs)).Nodup :=
  nodup_wsKeys_foldl_gl fs libs [] (by simp [wsKeys])

theorem changed_entries_self_nil (w : WatchSet) (h : (wsKeys w).Nodup) :
    changed_entries w w = [] := by
  rw [List.eq_nil_iff_forall_not_mem]
  intro x hx
  obtain ⟨hmem, old, hfind, hc⟩ := (mem_changed_entries w w x).mp hx
  obtain ⟨p, e⟩ := x
  have heq : wsFind w p = some e := wsFind_of_mem_nodup w h p e hmem
  have he : some e = some old := heq.symm.trans hfind
  injection he with he
  subst he
  rcases hc with hlt | hne
  · exact absurd hlt (lt_irrefl _)
  · exact hne rfl

/-! Claim theorems. -/

/-- C1: the change detector reports exactly the entries whose path is
present in both snapshots and that satisfy `cur.mtime > prev.mtime` OR
`cur.size != prev.size` (so equal mtime with equal size is not a change
and equal mtime with a different size is a change); an entry whose path
occurs only in the current snapshot (no baseline in `prev`) or only in
the previous snapshot (absent from `cur`) is never reported. -/
theorem changed_entries_exact (prev cur : WatchSet) (x : String × WatchEntry) :
    x ∈ changed_entries prev cur ↔ x ∈ cur ∧ specChanged prev x :=
  mem_changed_entries prev cur x

/-- C2: a scheduler tick with monitoring off returns the configured
interval in every mode (including AGGRESSIVE), leaves the cached
WatchSet and `last_check_time` unchanged, dispatches no reload and
requests no redraw. -/
theorem tick_stopped_is_idle (fs : FS) (libs : List Library) (now : ℚ)
    (props : Props) (cache : WatchSet) (h : props.is_monitoring = false) :
    check_linked_files fs libs now props cache =
      { props := props, cache := cache, updated := [], redraw := false,
        delay := props.check_interval } := by
  simp [check_linked_files, h]

/-- C2 witness: a stopped AGGRESSIVE-mode tick at time 3 is an idle
heartbeat returning the configured interval. -/
theorem tick_stopped_is_idle_witness :
    propsOffAgg.is_monitoring = false ∧
    check_linked_files fsA libsA 3 propsOffAgg cacheA =
      { props := propsOffAgg, cache := cacheA, updated := [], redraw := false,
        delay := propsOffAgg.check_interval } :=
  ⟨rfl, tick_stopped_is_idle fsA libsA 3 propsOffAgg cacheA rfl⟩

/-- C3: a monitoring tick whose interval has elapsed stamps
`last_check_time = now`, rebuilds a fresh snapshot, runs the
detection-and-dispatch loop against the cached snapshot, replaces the
cache with the fresh snapshot, and in DIRECT mode returns the
configured interval as the next delay. -/
theorem tick_full_check_runs (fs : FS) (libs : List Library) (now : ℚ)
    (props : Props) (cache : WatchSet) (hm : props.is_monitoring = true)
    (ht : now - props.last_check_time ≥ props.check_interval) :
    (check_linked_files fs libs now props cache).props =
      { props with last_check_time := now } ∧
    (check_linked_files fs libs now props cache).cache = get_linked_files fs libs ∧
    (check_linked_files fs libs now props cache).updated =
      update_loop cache (get_linked_files fs libs) ∧
    (props.watch_mode = WatchMode.DIRECT →
      (check_linked_files fs libs now props cache).delay = props.check_interval) := by
  have h1 : ¬ (props.is_monitoring = false) := by simp [hm]
  refine ⟨?_, ?_, ?_, ?_⟩
  · simp [check_linked_files, h1, ht, update_linked_files]
  · simp [check_linked_files, h1, ht, update_linked_files]
  · simp [check_linked_files, h1, ht, update_linked_files]
  · intro hd
    simp [check_linked_files, h1, ht, hd]

/-- C3 witness: a DIRECT-mode tick at time 6 with interval 5 and last
check at 0 runs the full check, stamps the clock and returns 5. -/
theorem tick_full_check_runs_witness :
    propsDir.is_monitoring = true ∧
    (6 : ℚ) - propsDir.last_check_time ≥ propsDir.check_interval ∧
    ((check_linked_files fsA libsA 6 propsDir cacheA).props =
      { propsDir with last_check_time := 6 } ∧
    (check_linked_files fsA libsA 6 propsDir cacheA).cache = get_linked_files fsA libsA ∧
    (check_linked_files fsA libsA 6 propsDir cacheA).updated =
      update_loop cacheA (get_linked_files fsA libsA) ∧
    (propsDir.watch_mode = WatchMode.DIRECT →
      (check_linked_files fsA libsA 6 propsDir cacheA).delay = propsDir.check_interval)) := by
  have h2 : (6 : ℚ) - propsDir.last_check_time ≥ propsDir.check_interval := by
    norm_num [propsDir]
  exact ⟨rfl, h2, tick_full_check_runs fsA libsA 6 propsDir cacheA rfl h2⟩

/-- C4: a monitoring AGGRESSIVE-mode tick whose interval has not yet
elapsed skips the full check and runs the lightweight poll instead:
the cache is replaced with the fresh snapshot, the
detection-and-dispatch loop runs against the cached snapshot, the
property group (in particular `last_check_time`) is left unchanged, and
the returned delay is 0.2 regardless of the configured interval. -/
theorem tick_aggressive_lightweight_poll (fs : FS) (libs : List Library) (now : ℚ)
    (props : Props) (cache : WatchSet) (hm : props.is_monitoring = true)
    (ht : ¬ (now - props.last_check_time ≥ props.check_interval))
    (ha : props.watch_mode = WatchMode.AGGRESSIVE) :
    (check_linked_files fs libs now props cache).props = props ∧
    (check_linked_files fs libs now props cache).cache = get_linked_files fs libs ∧
    (check_linked_files fs libs now props cache).updated =
      update_loop cache (get_linked_files fs libs) ∧
    (check_linked_files fs libs now props cache).delay = 0.2 := by
  have h1 : ¬ (props.is_monitoring = false) := by simp [hm]
  refine ⟨?_, ?_, ?_, ?_⟩ <;>
    simp [check_linked_files, h1, ht, ha, poll_files]

/-- C4 witness: an AGGRESSIVE-mode tick at time 11 with interval 5 and
last check at 10 polls lightweight, keeps `last_check_time = 10` and
returns 0.2. -/
theorem tick_aggressive_lightweight_poll_witness :
    propsAgg.is_monitoring = true ∧
    ¬ ((11 : ℚ) - propsAgg.last_check_time ≥ propsAgg.check_interval) ∧
    propsAgg.watch_mode = WatchMode.AGGRESSIVE ∧
    ((check_linked_files fsA libsA 11 propsAgg cacheA).props = propsAgg ∧
    (check_linked_files fsA libsA 11 propsAgg cacheA).cache = get_linked_files fsA libsA ∧
    (check_linked_files fsA libsA 11 propsAgg cacheA).updated =
      update_loop cacheA (get_linked_files fsA libsA) ∧
    (check_linked_files fsA libsA 11 propsAgg cacheA).delay = 0.2) := by
  have h2 : ¬ ((11 : ℚ) - propsAgg.last_check_time ≥ propsAgg.check_interval) := by
    norm_num [propsAgg]
  exact ⟨rfl, h2, rfl, tick_aggressive_lightweight_poll fsA libsA 11 propsAgg cacheA rfl h2 rfl⟩

/-- C5: reload failures are isolated per entry: the dispatch loop
attempts the reload of every changed entry regardless of other entries
failing, reports exactly the successfully reloaded ones (in order), and
being a total function it never propagates an exception. -/
theorem dispatch_failure_isolation (prev cur : WatchSet) :
    update_loop prev cur =
      ((changed_entries prev cur).filter (fun pe => pe.2.library.reload_ok)).map
        (fun pe => pe.2.lib_name) :=
  update_loop_eq_filter_map prev cur

/-- C6 counterexample: the force-immediate-check operator reloads a
changed entry successfully (`updated = ["LibA"]`) yet requests no
redraw, contradicting the claim that any successful dispatch requests
the host's redraw. -/
theorem force_check_redraw_missing_cex :
    (force_check_execute fsA libsA propsDir cacheA).updated = ["LibA"] ∧
    (force_check_execute fsA libsA propsDir cacheA).redraw = false :=
  ⟨by decide, rfl⟩

/-- C6 amended: only the scheduler tick requests a redraw, and it does
so exactly when some reload succeeded; the force-immediate-check and
force-reload-all operators never request a redraw, even on success. -/
theorem redraw_requested_only_by_tick (fs : FS) (libs : List Library) (now : ℚ)
    (props : Props) (cache : WatchSet) :
    (check_linked_files fs libs now props cache).redraw =
      !(check_linked_files fs libs now props cache).updated.isEmpty ∧
    (force_check_execute fs libs props cache).redraw = false ∧
    (manual_update_execute fs libs props cache).redraw = false := by
  refine ⟨?_, rfl, rfl⟩
  by_cases h : props.is_monitoring = false <;> simp [check_linked_files, h]

/-- C7: the rebuilt snapshot has an entry at path `p` exactly when some
host resource has a non-empty source path that resolves to `p`, `p`
exists on disk and its metadata probe succeeds; resources with an empty
path, a non-existing path or a failing stat are silently excluded (the
builder is total, so no error is surfaced). -/
theorem snapshot_inclusion_exact (fs : FS) (libs : List Library) (p : String) :
    (wsFind (get_linked_files fs libs) p).isSome ↔
      ∃ lib ∈ libs, lib.filepath ≠ "" ∧ fs.abspath lib.filepath = p ∧
        fs.pathExists p = true ∧ (fs.stat p).isSome := by
  have h := wsFind_isSome_foldl_gl fs libs [] p
  simpa [get_linked_files, wsFind] using h

/-- C8: the cache-invalidation helper returns a failure flag instead of
raising (its body reduces to a boolean test), and its result is ignored
everywhere: replacing the success behaviour of the invalidation side
effects changes neither the rebuilt snapshot nor the update or poll
results, so metadata probing continues regardless. -/
theorem invalidation_failure_harmless (fs : FS) (f : String → Bool)
    (libs : List Library) (props : Props) (cache : WatchSet) (p : String) :
    force_filesystem_update { fs with invalidateOk := f } p =
      (if fs.pathExists p = false then false else f p) ∧
    get_linked_files { fs with invalidateOk := f } libs = get_linked_files fs libs ∧
    update_linked_files { fs with invalidateOk := f } libs cache =
      update_linked_files fs libs cache ∧
    poll_files { fs with invalidateOk := f } libs props cache =
      poll_files fs libs props cache :=
  ⟨rfl, rfl, rfl, rfl⟩

/-- C9 counterexample: the force-immediate-check operator, run while
`last_check_time = 0` at a moment when the current time is 7, leaves
`last_check_time` at 0 (its `execute` never reads the clock), so it
does not perform the `last_check_time = now` stamp that step 2 of the
scheduler algorithm requires. -/
theorem force_check_does_not_stamp_cex :
    (force_check_execute fsA libsA propsDir cacheA).props.last_check_time = 0 ∧
    (0 : ℚ) ≠ 7 :=
  ⟨rfl, by norm_num⟩

/-- C9 amended: the force-immediate-check operator performs the
rebuild/diff/dispatch/cache-replacement of a full check (after a
best-effort invalidation of every cached path) but does not touch the
property group: in particular `last_check_time` is left unchanged
rather than stamped to the current time. -/
theorem force_check_full_check_no_stamp (fs : FS) (libs : List Library)
    (props : Props) (cache : WatchSet) :
    (force_check_execute fs libs props cache).props = props ∧
    (force_check_execute fs libs props cache).cache = get_linked_files fs libs ∧
    (force_check_execute fs libs props cache).updated =
      update_loop cache (get_linked_files fs libs) :=
  ⟨rfl, rfl, rfl⟩

/-- C10: after a full check or an AGGRESSIVE-mode lightweight poll the
cache equals the fresh snapshot — whose entries do not depend on reload
outcomes, so a failed entry's baseline advances too — and diffing a
snapshot against itself detects nothing, so an already-absorbed on-disk
change is not re-detected (nor its reload retried) on the next cycle. -/
theorem cache_replaced_unconditionally (fs : FS) (libs : List Library)
    (cache : WatchSet) (ivl lct : ℚ) (mon : Bool) :
    (update_linked_files fs libs cache).2 = get_linked_files fs libs ∧
    (poll_files fs libs
      { check_interval := ivl, is_monitoring := mon, last_check_time := lct,
        watch_mode := WatchMode.AGGRESSIVE } cache).2 = get_linked_files fs libs ∧
    changed_entries (get_linked_files fs libs) (get_linked_files fs libs) = [] :=
  ⟨rfl, by simp [poll_files],
    changed_entries_self_nil _ (nodup_wsKeys_get_linked_files fs libs)⟩

end LinkedFileSync
